import Mathlib

/-!
Shallow embedding of `packages/common/src/compiler/DocumentRegistry.ts`.

The `DocumentRegistry` class is stateful: it owns a `Map` from standardized
file paths to `ts.SourceFile` objects.  We model the mutable object as an
explicit state record threaded through every method.  The external
collaborators (the transactional file system's path standardization, the
optional document caches, and the parser `createCompilerSourceFile`) are
injected as an environment record, mirroring how the class receives them via
its constructor and module imports.  The parser may throw in JavaScript, so it
is `Except`-valued here and each method returns the post-call state together
with an `Except` result.

Two instrumentation counters (`parseCount`, `docCacheQueryCount`) record how
often the parser and the document caches are invoked; they are not part of the
JavaScript object's state but make the spec's observability statements
("the Parser collaborator is invoked exactly once") expressible.
-/

namespace DocReg

/-- The `StandardizedFilePath` from the file-system layer: an opaque normalized
path string. -/
abbrev StandardizedFilePath := String

/-- The `ts.ScriptTarget` (the target dialect): opaque to the registry, carried
through to caches and the parser. -/
abbrev ScriptTarget := Nat

/-- The `ts.ScriptKind`: opaque to the registry. -/
abbrev ScriptKind := Nat

/-- The `ts.IScriptSnapshot`: the registry never inspects it, only forwards it;
modelled as the snapshot's text. -/
abbrev Snapshot := String

/-- The `ts.Path` (used only by the `WithKey` entry points, which ignore it). -/
abbrev TsPath := String

/-- The `ts.DocumentRegistryBucketKey` (ignored by this registry). -/
abbrev BucketKey := String

/-- A parsed source file as the registry observes it: the registry reads only
the `version` property, which may be absent (`none`); the rest of the
`ts.SourceFile` object is opaque payload, represented by its text. -/
structure SourceFile where
  version : Option String
  text : String
deriving DecidableEq

/-- The `CompilerOptions`: the registry only ever reads `.target` (an optional
`ScriptTarget`). -/
structure CompilerOptions where
  target : Option ScriptTarget
deriving DecidableEq

/-- The `FileSystemSpecificDocumentCache`: a document cache already bound to the
registry's file system; the registry only calls `getDocumentIfMatch`. -/
structure DocumentCacheFS where
  getDocumentIfMatch : StandardizedFilePath → Snapshot → Option ScriptTarget → Option ScriptKind → Option SourceFile

/-- The registry's collaborators, fixed at construction time:
`transactionalFileSystem.getStandardizedAbsolutePath`, the optional list of
file-system-bound document caches, and the parser `createCompilerSourceFile`
(which may throw, hence `Except`). -/
structure Env where
  getStandardizedAbsolutePath : String → StandardizedFilePath
  documentCaches : Option (List DocumentCacheFS)
  createCompilerSourceFile :
    StandardizedFilePath → Snapshot → Option ScriptTarget → String → Bool → Option ScriptKind →
      Except Unit SourceFile

/-- The registry's mutable state: the `sourceFileCacheByFilePath` map
(association list, insertion order preserved like a JS `Map`), plus the two
instrumentation counters. -/
structure RegistryState where
  sourceFileCacheByFilePath : List (StandardizedFilePath × SourceFile)
  parseCount : Nat
  docCacheQueryCount : Nat
deriving DecidableEq

/-- The `Map.prototype.get`. -/
def mapGet : List (StandardizedFilePath × SourceFile) → StandardizedFilePath → Option SourceFile
  | [], _ => none
  | e :: rest, k => if e.1 = k then some e.2 else mapGet rest k

/-- The `Map.prototype.set`: replaces in place when the key is present, appends
otherwise. -/
def mapSet : List (StandardizedFilePath × SourceFile) → StandardizedFilePath → SourceFile →
    List (StandardizedFilePath × SourceFile)
  | [], k, v => [(k, v)]
  | e :: rest, k, v => if e.1 = k then (k, v) :: rest else e :: mapSet rest k v

/-- The `Map.prototype.delete`: removes the entry for the key (a JS `Map` holds at
most one entry per key; removing every occurrence realizes that on arbitrary
association lists). -/
def mapDelete : List (StandardizedFilePath × SourceFile) → StandardizedFilePath →
    List (StandardizedFilePath × SourceFile)
  | [], _ => []
  | e :: rest, k => if e.1 = k then mapDelete rest k else e :: mapDelete rest k

/-- The `DocumentRegistry.initialVersion`. -/
def initialVersion : String := "0"

/-- The `getSourceFileVersion`: `(sourceFile as any).version || "0"` — an absent
version and the empty string are both falsy, yielding `"0"`. -/
def getSourceFileVersion (sourceFile : SourceFile) : String :=
  match sourceFile.version with
  | none => "0"
  | some v => if v = "" then "0" else v

/-- JavaScript `parseInt(s, 10)`: skip leading whitespace, optional sign, then
the longest prefix of decimal digits; `none` models `NaN` (no digits). -/
def jsParseIntDigits (cs : List Char) : Option Nat :=
  let ds := cs.takeWhile Char.isDigit
  if ds = [] then none
  else some (ds.foldl (fun a c => a * 10 + (c.toNat - 48)) 0)

/-- JavaScript `parseInt(s, 10)` including sign handling. -/
def jsParseInt (s : String) : Option Int :=
  match s.data.dropWhile Char.isWhitespace with
  | [] => none
  | c :: rest =>
    if c = '-' then (jsParseIntDigits rest).map (fun n => -(n : Int))
    else if c = '+' then (jsParseIntDigits rest).map (fun n => (n : Int))
    else (jsParseIntDigits (c :: rest)).map (fun n => (n : Int))

/-- The `getNextSourceFileVersion`:
`parseInt(this.getSourceFileVersion(sourceFile), 10) || 0`, then `+ 1` and
`toString()`.  `NaN || 0` and `0 || 0` both give `0`, i.e. `getD 0`. -/
def getNextSourceFileVersion (sourceFile : SourceFile) : String :=
  let currentVersion : Int := (jsParseInt (getSourceFileVersion sourceFile)).getD 0
  toString (currentVersion + 1)

/-- The `for (const cache of this.documentCaches)` loop body of
`updateSourceFile`: query each cache in registration order, stopping at the
first match.  Returns the number of caches queried together with the match. -/
def queryCachesList : List DocumentCacheFS → StandardizedFilePath → Snapshot →
    Option ScriptTarget → Option ScriptKind → Nat × Option SourceFile
  | [], _, _, _, _ => (0, none)
  | cache :: rest, fileName, snap, target, kind =>
    match cache.getDocumentIfMatch fileName snap target kind with
    | some document => (1, some document)
    | none =>
      let r := queryCachesList rest fileName snap target kind
      (r.1 + 1, r.2)

/-- The `if (this.documentCaches)` guard: an `undefined` cache list is never
iterated. -/
def queryCaches (caches : Option (List DocumentCacheFS)) (fileName : StandardizedFilePath)
    (snap : Snapshot) (target : Option ScriptTarget) (kind : Option ScriptKind) :
    Nat × Option SourceFile :=
  match caches with
  | none => (0, none)
  | some list => queryCachesList list fileName snap target kind

/-- The `private updateSourceFile`: consult the document caches in order; on a
match, store and return the cached document.  Otherwise invoke
`createCompilerSourceFile` (with `setParentNodes = true`); on success store
and return the new file, on a thrown error propagate it, leaving the map
untouched. -/
def updateSourceFile (env : Env) (st : RegistryState) (fileName : StandardizedFilePath)
    (compilationSettings : CompilerOptions) (scriptSnapshot : Snapshot) (version : String)
    (scriptKind : Option ScriptKind) : RegistryState × Except Unit SourceFile :=
  let q := queryCaches env.documentCaches fileName scriptSnapshot compilationSettings.target scriptKind
  match q.2 with
  | some document =>
    ({ st with
        sourceFileCacheByFilePath := mapSet st.sourceFileCacheByFilePath fileName document,
        docCacheQueryCount := st.docCacheQueryCount + q.1 },
      Except.ok document)
  | none =>
    match env.createCompilerSourceFile fileName scriptSnapshot compilationSettings.target version
        true scriptKind with
    | Except.error e =>
      ({ st with
          parseCount := st.parseCount + 1,
          docCacheQueryCount := st.docCacheQueryCount + q.1 },
        Except.error e)
    | Except.ok newSourceFile =>
      ({ sourceFileCacheByFilePath := mapSet st.sourceFileCacheByFilePath fileName newSourceFile,
         parseCount := st.parseCount + 1,
         docCacheQueryCount := st.docCacheQueryCount + q.1 },
        Except.ok newSourceFile)

/-- The `createOrUpdateSourceFile`: materialize at the initial version when the
path is absent from the map, else at the stored file's next version. -/
def createOrUpdateSourceFile (env : Env) (st : RegistryState) (fileName : StandardizedFilePath)
    (compilationSettings : CompilerOptions) (scriptSnapshot : Snapshot)
    (scriptKind : Option ScriptKind) : RegistryState × Except Unit SourceFile :=
  match mapGet st.sourceFileCacheByFilePath fileName with
  | none =>
    updateSourceFile env st fileName compilationSettings scriptSnapshot initialVersion scriptKind
  | some sourceFile =>
    updateSourceFile env st fileName compilationSettings scriptSnapshot
      (getNextSourceFileVersion sourceFile) scriptKind

/-- The `removeSourceFile`. -/
def removeSourceFile (st : RegistryState) (fileName : StandardizedFilePath) : RegistryState :=
  { st with sourceFileCacheByFilePath := mapDelete st.sourceFileCacheByFilePath fileName }

/-- The `acquireDocument`: standardize the path, then return the cached file when
one is present with the requested version; otherwise materialize via
`updateSourceFile`. -/
def acquireDocument (env : Env) (st : RegistryState) (fileName : String)
    (compilationSettings : CompilerOptions) (scriptSnapshot : Snapshot) (version : String)
    (scriptKind : Option ScriptKind) : RegistryState × Except Unit SourceFile :=
  let standardizedFilePath := env.getStandardizedAbsolutePath fileName
  match mapGet st.sourceFileCacheByFilePath standardizedFilePath with
  | none =>
    updateSourceFile env st standardizedFilePath compilationSettings scriptSnapshot version
      scriptKind
  | some sourceFile =>
    if getSourceFileVersion sourceFile ≠ version then
      updateSourceFile env st standardizedFilePath compilationSettings scriptSnapshot version
        scriptKind
    else (st, Except.ok sourceFile)

/-- The `acquireDocumentWithKey`: "ignore the key because we only ever keep track
of one key". -/
def acquireDocumentWithKey (env : Env) (st : RegistryState) (fileName : String) (_path : TsPath)
    (compilationSettings : CompilerOptions) (_key : BucketKey) (scriptSnapshot : Snapshot)
    (version : String) (scriptKind : Option ScriptKind) : RegistryState × Except Unit SourceFile :=
  acquireDocument env st fileName compilationSettings scriptSnapshot version scriptKind

/-- The `updateDocument`: delegates to `acquireDocument`. -/
def updateDocument (env : Env) (st : RegistryState) (fileName : String)
    (compilationSettings : CompilerOptions) (scriptSnapshot : Snapshot) (version : String)
    (scriptKind : Option ScriptKind) : RegistryState × Except Unit SourceFile :=
  acquireDocument env st fileName compilationSettings scriptSnapshot version scriptKind

/-- The `updateDocumentWithKey`: ignores the key, delegates to `updateDocument`. -/
def updateDocumentWithKey (env : Env) (st : RegistryState) (fileName : String) (_path : TsPath)
    (compilationSettings : CompilerOptions) (_key : BucketKey) (scriptSnapshot : Snapshot)
    (version : String) (scriptKind : Option ScriptKind) : RegistryState × Except Unit SourceFile :=
  updateDocument env st fileName compilationSettings scriptSnapshot version scriptKind

/-- The `getKeyForCompilationSettings`: always the single bucket `"defaultKey"`. -/
def getKeyForCompilationSettings (_settings : CompilerOptions) : BucketKey :=
  "defaultKey"

/-- The `releaseDocument`: `// ignore, handled by removeSourceFile`. -/
def releaseDocument (st : RegistryState) (_fileName : String)
    (_compilationSettings : CompilerOptions) : RegistryState :=
  st

/-- The `releaseDocumentWithKey`: `// ignore, handled by removeSourceFile`. -/
def releaseDocumentWithKey (st : RegistryState) (_path : TsPath) (_key : BucketKey) :
    RegistryState :=
  st

/-- The `reportStats`: `throw new errors.NotImplementedError()`. -/
def reportStats : Except Unit String :=
  Except.error ()

/-- Modelled from the spec: `createCompilerSourceFile` lives in
`packages/common/src/compiler/createCompilerSourceFile.ts`, which is not part
of the reviewed sources.  Per the spec, the Parser is a pure function
`(path, snapshot, dialect, version, setParentPointers flag, script kind) →
parsed tree` and the parsed tree carries its Revision (the version it was
materialized at): the produced file records the requested version verbatim. -/
def createCompilerSourceFileModel (_fileName : StandardizedFilePath) (scriptSnapshot : Snapshot)
    (_target : Option ScriptTarget) (version : String) (_setParentNodes : Bool)
    (_scriptKind : Option ScriptKind) : SourceFile :=
  { version := some version, text := scriptSnapshot }

/-- A concrete environment for witnesses: identity path standardization, no
document caches, and the spec-modelled parser (which never throws). -/
def envModel : Env where
  getStandardizedAbsolutePath := fun s => s
  documentCaches := none
  createCompilerSourceFile := fun f s t v b k =>
    Except.ok (createCompilerSourceFileModel f s t v b k)

/-- A registry fresh out of the constructor: empty map, nothing invoked yet. -/
def initialState : RegistryState :=
  { sourceFileCacheByFilePath := [], parseCount := 0, docCacheQueryCount := 0 }

/-- Runs `N` successive calls to `createOrUpdateSourceFile` with fixed arguments;
returns the final state and the list of per-call results in call order. -/
def createOrUpdateRun (env : Env) (fileName : StandardizedFilePath)
    (compilationSettings : CompilerOptions) (scriptSnapshot : Snapshot)
    (scriptKind : Option ScriptKind) : Nat → RegistryState →
    RegistryState × List (Except Unit SourceFile)
  | 0, st => (st, [])
  | n + 1, st =>
    let p := createOrUpdateSourceFile env st fileName compilationSettings scriptSnapshot scriptKind
    let rest := createOrUpdateRun env fileName compilationSettings scriptSnapshot scriptKind n p.1
    (rest.1, p.2 :: rest.2)

/-- The version a run's caller observes on each result (`"err"` for a thrown
parse, which never occurs under a total parser). -/
def resultVersion : Except Unit SourceFile → String
  | Except.ok sf => getSourceFileVersion sf
  | Except.error _ => "err"

/-! ### Association-list map lemmas -/

theorem mapGet_mapSet_self (m : List (StandardizedFilePath × SourceFile))
    (k : StandardizedFilePath) (v : SourceFile) : mapGet (mapSet m k v) k = some v := by
  induction m with
  | nil => simp [mapSet, mapGet]
  | cons e rest ih =>
    by_cases h : e.1 = k <;> simp [mapSet, mapGet, h, ih]

theorem mapGet_mapDelete_self (m : List (StandardizedFilePath × SourceFile))
    (k : StandardizedFilePath) : mapGet (mapDelete m k) k = none := by
  induction m with
  | nil => simp [mapDelete, mapGet]
  | cons e rest ih =>
    by_cases h : e.1 = k <;> simp [mapDelete, mapGet, h, ih]

/-! ### `getSourceFileVersion` basic facts -/

theorem getSourceFileVersion_ne_empty (sf : SourceFile) : getSourceFileVersion sf ≠ "" := by
  unfold getSourceFileVersion
  match sf.version with
  | none => decide
  | some v =>
    by_cases h : v = "" <;> simp [h]

theorem getSourceFileVersion_of_some (sf : SourceFile) (v : String) (hv : sf.version = some v)
    (hne : v ≠ "") : getSourceFileVersion sf = v := by
  simp [getSourceFileVersion, hv, hne]

/-! ### Decimal-numeral roundtrip: `parseInt(n.toString(), 10) = n`

The registry's version strings are produced by `Number.prototype.toString`
(modelled by Lean's decimal `Nat.repr`/`Int` printing) and consumed by
`parseInt(-, 10)` (modelled by `jsParseInt`).  The lemmas below establish the
roundtrip used by the monotonic-revision proofs. -/

theorem digitChar_facts (m : Nat) (h : m < 10) :
    (Nat.digitChar m).isDigit = true ∧ (Nat.digitChar m).isWhitespace = false ∧
      Nat.digitChar m ≠ '-' ∧ Nat.digitChar m ≠ '+' ∧ (Nat.digitChar m).toNat - 48 = m := by
  interval_cases m <;> exact ⟨by decide, by decide, by decide, by decide, by decide⟩

theorem toDigitsCore_acc (fuel : Nat) :
    ∀ (n : Nat) (ds : List Char),
      Nat.toDigitsCore 10 fuel n ds = Nat.toDigitsCore 10 fuel n [] ++ ds := by
  induction fuel with
  | zero => intro n ds; simp [Nat.toDigitsCore]
  | succ fuel ih =>
    intro n ds
    simp only [Nat.toDigitsCore]
    by_cases h : n / 10 = 0
    · simp [h]
    · simp only [h, if_false]
      rw [ih (n / 10) (Nat.digitChar (n % 10) :: ds), ih (n / 10) [Nat.digitChar (n % 10)]]
      simp

theorem toDigitsCore_fuel (n : Nat) : ∀ f1 f2 : Nat, n < f1 → n < f2 →
    Nat.toDigitsCore 10 f1 n [] = Nat.toDigitsCore 10 f2 n [] := by
  induction n using Nat.strong_induction_on with
  | _ n ih =>
    intro f1 f2 h1 h2
    match f1, f2 with
    | g1 + 1, g2 + 1 =>
      simp only [Nat.toDigitsCore]
      by_cases h : n / 10 = 0
      · simp [h]
      · simp only [h, if_false]
        rw [toDigitsCore_acc g1, toDigitsCore_acc g2]
        have hlt : n / 10 < n := Nat.div_lt_self (Nat.pos_of_ne_zero (by
          intro h0; exact h (by simp [h0]))) (by decide)
        rw [ih (n / 10) hlt g1 g2 (by omega) (by omega)]

theorem toDigits_lt (n : Nat) (h : n < 10) : Nat.toDigits 10 n = [Nat.digitChar n] := by
  have h0 : n / 10 = 0 := Nat.div_eq_of_lt h
  simp [Nat.toDigits, Nat.toDigitsCore, h0, Nat.mod_eq_of_lt h]

theorem toDigits_ge (n : Nat) (h : 10 ≤ n) :
    Nat.toDigits 10 n = Nat.toDigits 10 (n / 10) ++ [Nat.digitChar (n % 10)] := by
  have h0 : n / 10 ≠ 0 := by
    intro hc; have := Nat.div_eq_of_lt (show n < 10 by omega); omega
  show Nat.toDigitsCore 10 (n + 1) n [] = _
  simp only [Nat.toDigitsCore, h0, if_false]
  rw [toDigitsCore_acc n]
  have hlt : n / 10 < n := Nat.div_lt_self (by omega) (by decide)
  rw [toDigitsCore_fuel (n / 10) n (n / 10 + 1) hlt (by omega)]
  rfl

theorem toDigits_ne_nil (n : Nat) : Nat.toDigits 10 n ≠ [] := by
  by_cases h : n < 10
  · rw [toDigits_lt n h]; simp
  · rw [toDigits_ge n (by omega)]; simp

theorem toDigits_mem (n : Nat) :
    ∀ c ∈ Nat.toDigits 10 n, ∃ m, m < 10 ∧ c = Nat.digitChar m := by
  induction n using Nat.strong_induction_on with
  | _ n ih =>
    by_cases h : n < 10
    · rw [toDigits_lt n h]
      intro c hc
      simp only [List.mem_singleton] at hc
      exact ⟨n, h, hc⟩
    · rw [toDigits_ge n (by omega)]
      intro c hc
      rcases List.mem_append.mp hc with h1 | h2
      · exact ih (n / 10) (Nat.div_lt_self (by omega) (by decide)) c h1
      · simp only [List.mem_singleton] at h2
        exact ⟨n % 10, Nat.mod_lt _ (by decide), h2⟩

theorem toDigits_foldl (n : Nat) : ∀ a : Nat,
    (Nat.toDigits 10 n).foldl (fun a c => a * 10 + (c.toNat - 48)) a
      = a * 10 ^ (Nat.toDigits 10 n).length + n := by
  induction n using Nat.strong_induction_on with
  | _ n ih =>
    intro a
    by_cases h : n < 10
    · rw [toDigits_lt n h]
      simp [(digitChar_facts n h).2.2.2.2]
    · have hlt : n / 10 < n := Nat.div_lt_self (by omega) (by decide)
      rw [toDigits_ge n (by omega)]
      rw [List.foldl_append, ih (n / 10) hlt a]
      simp only [List.foldl, (digitChar_facts (n % 10) (Nat.mod_lt _ (by decide))).2.2.2.2,
        List.length_append, List.length_singleton]
      have hdm : n / 10 * 10 + n % 10 = n := by omega
      calc (a * 10 ^ (Nat.toDigits 10 (n / 10)).length + n / 10) * 10 + n % 10
          = a * (10 ^ (Nat.toDigits 10 (n / 10)).length * 10) + (n / 10 * 10 + n % 10) := by ring
        _ = a * 10 ^ ((Nat.toDigits 10 (n / 10)).length + 1) + n := by rw [hdm, pow_succ]

theorem takeWhile_of_all {p : Char → Bool} :
    ∀ l : List Char, (∀ c ∈ l, p c = true) → l.takeWhile p = l := by
  intro l hl
  induction l with
  | nil => rfl
  | cons c cs ih =>
    have hc : p c = true := hl c (by simp)
    simp only [List.takeWhile_cons, hc, if_true]
    rw [ih (fun d hd => hl d (by simp [hd]))]

theorem jsParseIntDigits_toDigits (n : Nat) :
    jsParseIntDigits (Nat.toDigits 10 n) = some n := by
  have hall : ∀ c ∈ Nat.toDigits 10 n, c.isDigit = true := by
    intro c hc
    obtain ⟨m, hm, hcm⟩ := toDigits_mem n c hc
    rw [hcm]
    exact (digitChar_facts m hm).1
  unfold jsParseIntDigits
  rw [takeWhile_of_all _ hall]
  simp only [toDigits_ne_nil n, if_false]
  rw [toDigits_foldl n 0]
  simp

theorem repr_data (n : Nat) : (Nat.repr n).data = Nat.toDigits 10 n := rfl

theorem repr_ne_empty (n : Nat) : Nat.repr n ≠ "" := by
  intro h
  have hd : (Nat.repr n).data = [] := by rw [h]
  rw [repr_data] at hd
  exact toDigits_ne_nil n hd

theorem jsParseInt_repr (n : Nat) : jsParseInt (Nat.repr n) = some (n : Int) := by
  unfold jsParseInt
  rw [repr_data]
  rcases hds : Nat.toDigits 10 n with _ | ⟨c, cs⟩
  · exact absurd hds (toDigits_ne_nil n)
  · obtain ⟨m, hm, hcm⟩ := toDigits_mem n c (by rw [hds]; simp)
    have hfacts := digitChar_facts m hm
    have hw : c.isWhitespace = false := by rw [hcm]; exact hfacts.2.1
    have hminus : ¬(c = '-') := by rw [hcm]; exact hfacts.2.2.1
    have hplus : ¬(c = '+') := by rw [hcm]; exact hfacts.2.2.2.1
    simp only [List.dropWhile_cons, hw, Bool.false_eq_true, if_false, hminus, hplus]
    rw [← hds, jsParseIntDigits_toDigits n]
    rfl

theorem natCast_toString (k : Nat) : toString ((k : Nat) : Int) = Nat.repr k := rfl

/-- The version bump computed by `getNextSourceFileVersion` on a file whose
recorded version is the decimal numeral for `k` is the numeral for `k + 1`. -/
theorem getNextSourceFileVersion_repr (sf : SourceFile) (k : Nat)
    (h : sf.version = some (Nat.repr k)) :
    getNextSourceFileVersion sf = Nat.repr (k + 1) := by
  have h1 : getSourceFileVersion sf = Nat.repr k :=
    getSourceFileVersion_of_some sf _ h (repr_ne_empty k)
  unfold getNextSourceFileVersion
  rw [h1, jsParseInt_repr]
  have h2 : ((k : Int) + 1) = (((k + 1 : Nat)) : Int) := by push_cast; ring
  show toString ((k : Int) + 1) = Nat.repr (k + 1)
  rw [h2]
  exact natCast_toString (k + 1)

/-! ### Shared unfolding lemmas for the registry operations -/

/-- When no document cache matches and the parser succeeds, `updateSourceFile`
stores the parser's result, bumps the parse counter and returns the result. -/
theorem updateSourceFile_parse_eq (env : Env) (st : RegistryState)
    (fileName : StandardizedFilePath) (cs : CompilerOptions) (snap : Snapshot) (v : String)
    (sk : Option ScriptKind) (sf : SourceFile)
    (hq : (queryCaches env.documentCaches fileName snap cs.target sk).2 = none)
    (hp : env.createCompilerSourceFile fileName snap cs.target v true sk = Except.ok sf) :
    updateSourceFile env st fileName cs snap v sk =
      ({ sourceFileCacheByFilePath := mapSet st.sourceFileCacheByFilePath fileName sf,
         parseCount := st.parseCount + 1,
         docCacheQueryCount := st.docCacheQueryCount
           + (queryCaches env.documentCaches fileName snap cs.target sk).1 },
        Except.ok sf) := by
  simp only [updateSourceFile, hq, hp]

/-- When no document cache matches and the parser throws, `updateSourceFile`
propagates the error, leaving the map untouched. -/
theorem updateSourceFile_error_eq (env : Env) (st : RegistryState)
    (fileName : StandardizedFilePath) (cs : CompilerOptions) (snap : Snapshot) (v : String)
    (sk : Option ScriptKind) (e : Unit)
    (hq : (queryCaches env.documentCaches fileName snap cs.target sk).2 = none)
    (hp : env.createCompilerSourceFile fileName snap cs.target v true sk = Except.error e) :
    updateSourceFile env st fileName cs snap v sk =
      ({ st with
          parseCount := st.parseCount + 1,
          docCacheQueryCount := st.docCacheQueryCount
            + (queryCaches env.documentCaches fileName snap cs.target sk).1 },
        Except.error e) := by
  simp only [updateSourceFile, hq, hp]

/-- Querying the caches in registration order stops at the first match. -/
theorem queryCachesList_first_match (fileName : StandardizedFilePath) (snap : Snapshot)
    (target : Option ScriptTarget) (kind : Option ScriptKind) (c : DocumentCacheFS)
    (rest : List DocumentCacheFS) (d : SourceFile)
    (hmatch : c.getDocumentIfMatch fileName snap target kind = some d) :
    ∀ pre : List DocumentCacheFS,
      (∀ c' ∈ pre, c'.getDocumentIfMatch fileName snap target kind = none) →
      queryCachesList (pre ++ c :: rest) fileName snap target kind =
        (pre.length + 1, some d) := by
  intro pre
  induction pre with
  | nil =>
    intro _
    simp [queryCachesList, hmatch]
  | cons e pre ih =>
    intro hmiss
    have he : e.getDocumentIfMatch fileName snap target kind = none := hmiss e (by simp)
    have hrest := ih (fun c' hc' => hmiss c' (by simp [hc']))
    simp only [List.cons_append, queryCachesList, he]
    simp only [List.append_eq, hrest, List.length_cons]

/-- Calling `acquireDocument` with no map entry for the standardized path materializes
via `updateSourceFile`. -/
theorem acquireDocument_of_fresh (env : Env) (st : RegistryState) (fileName : String)
    (cs : CompilerOptions) (snap : Snapshot) (v : String) (sk : Option ScriptKind)
    (hfresh : mapGet st.sourceFileCacheByFilePath (env.getStandardizedAbsolutePath fileName)
      = none) :
    acquireDocument env st fileName cs snap v sk =
      updateSourceFile env st (env.getStandardizedAbsolutePath fileName) cs snap v sk := by
  simp only [acquireDocument, hfresh]

/-- Calling `acquireDocument` with a map entry whose reported version differs from the
requested one materializes via `updateSourceFile`. -/
theorem acquireDocument_of_mismatch (env : Env) (st : RegistryState) (fileName : String)
    (cs : CompilerOptions) (snap : Snapshot) (v : String) (sk : Option ScriptKind)
    (sf : SourceFile)
    (hm : mapGet st.sourceFileCacheByFilePath (env.getStandardizedAbsolutePath fileName)
      = some sf)
    (hne : getSourceFileVersion sf ≠ v) :
    acquireDocument env st fileName cs snap v sk =
      updateSourceFile env st (env.getStandardizedAbsolutePath fileName) cs snap v sk := by
  simp only [acquireDocument, hm]
  rw [if_pos hne]

/-- Calling `acquireDocument` with a map entry whose reported version equals the
requested one is a pure cache hit: state unchanged, stored file returned. -/
theorem acquireDocument_of_hit (env : Env) (st : RegistryState) (fileName : String)
    (cs : CompilerOptions) (snap : Snapshot) (v : String) (sk : Option ScriptKind)
    (sf : SourceFile)
    (hm : mapGet st.sourceFileCacheByFilePath (env.getStandardizedAbsolutePath fileName)
      = some sf)
    (heq : getSourceFileVersion sf = v) :
    acquireDocument env st fileName cs snap v sk = (st, Except.ok sf) := by
  simp only [acquireDocument, hm]
  rw [if_neg (not_not_intro heq)]

/-- An environment whose parser always throws, for the error-propagation
witness. -/
def envFail : Env where
  getStandardizedAbsolutePath := fun s => s
  documentCaches := none
  createCompilerSourceFile := fun _ _ _ _ _ _ => Except.error ()

/-- A first lookaside cache that matches every query, for the priority
witness. -/
def cacheFirst : DocumentCacheFS where
  getDocumentIfMatch := fun _ _ _ _ => some { version := some "A", text := "docA" }

/-- A second lookaside cache that also matches every query. -/
def cacheSecond : DocumentCacheFS where
  getDocumentIfMatch := fun _ _ _ _ => some { version := some "B", text := "docB" }

/-- An environment with two registered document caches that both match. -/
def envTwoCaches : Env where
  getStandardizedAbsolutePath := fun s => s
  documentCaches := some [cacheFirst, cacheSecond]
  createCompilerSourceFile := fun f s t v b k =>
    Except.ok (createCompilerSourceFileModel f s t v b k)

/-! ### Claim theorems -/

/-- C3: if no registered lookaside cache reports a match for the supplied
(path, snapshot, target dialect, script kind), no cache's tree is returned:
`updateSourceFile` — the materialization path shared by every public entry
point — invokes the parser, stores the parser's result under the path, and
returns exactly that result. -/
theorem C3_no_stale_substitution (env : Env) (st : RegistryState)
    (fileName : StandardizedFilePath) (cs : CompilerOptions) (snap : Snapshot) (v : String)
    (sk : Option ScriptKind) (sf : SourceFile)
    (hq : (queryCaches env.documentCaches fileName snap cs.target sk).2 = none)
    (hp : env.createCompilerSourceFile fileName snap cs.target v true sk = Except.ok sf) :
    updateSourceFile env st fileName cs snap v sk =
      ({ sourceFileCacheByFilePath := mapSet st.sourceFileCacheByFilePath fileName sf,
         parseCount := st.parseCount + 1,
         docCacheQueryCount := st.docCacheQueryCount
           + (queryCaches env.documentCaches fileName snap cs.target sk).1 },
        Except.ok sf) :=
  updateSourceFile_parse_eq env st fileName cs snap v sk sf hq hp

/-- Witness for C3 at a concrete input: no caches registered, the modelled
parser runs once and its result is stored and returned. -/
theorem C3_no_stale_substitution_witness :
    ((queryCaches envModel.documentCaches "/a.ts" "x" none none).2 = none ∧
      envModel.createCompilerSourceFile "/a.ts" "x" none "1" true none
        = Except.ok { version := some "1", text := "x" }) ∧
    updateSourceFile envModel initialState "/a.ts" { target := none } "x" "1" none =
      ({ sourceFileCacheByFilePath := [("/a.ts", { version := some "1", text := "x" })],
         parseCount := 1, docCacheQueryCount := 0 },
        Except.ok { version := some "1", text := "x" }) :=
  ⟨⟨rfl, rfl⟩,
    C3_no_stale_substitution envModel initialState "/a.ts" { target := none } "x" "1" none
      { version := some "1", text := "x" } rfl rfl⟩

/-- C4: when the first-registered matching cache is preceded only by
non-matching caches, materialization stores and returns that cache's record
and the parser is not invoked (`parseCount` unchanged). -/
theorem C4_lookaside_priority (env : Env) (st : RegistryState)
    (fileName : StandardizedFilePath) (cs : CompilerOptions) (snap : Snapshot) (v : String)
    (sk : Option ScriptKind) (pre : List DocumentCacheFS) (c : DocumentCacheFS)
    (rest : List DocumentCacheFS) (d : SourceFile)
    (hreg : env.documentCaches = some (pre ++ c :: rest))
    (hmiss : ∀ c' ∈ pre, c'.getDocumentIfMatch fileName snap cs.target sk = none)
    (hmatch : c.getDocumentIfMatch fileName snap cs.target sk = some d) :
    updateSourceFile env st fileName cs snap v sk =
      ({ st with
          sourceFileCacheByFilePath := mapSet st.sourceFileCacheByFilePath fileName d,
          docCacheQueryCount := st.docCacheQueryCount + (pre.length + 1) },
        Except.ok d) := by
  have hq : queryCaches env.documentCaches fileName snap cs.target sk =
      (pre.length + 1, some d) := by
    rw [hreg]
    exact queryCachesList_first_match fileName snap cs.target sk c rest d hmatch pre hmiss
  simp only [updateSourceFile, hq]

/-- Witness for C4 at a concrete input: two registered caches both match; the
first one's record is returned, and the parse counter stays at zero. -/
theorem C4_lookaside_priority_witness :
    (envTwoCaches.documentCaches = some ([] ++ cacheFirst :: [cacheSecond]) ∧
      (∀ c' ∈ ([] : List DocumentCacheFS),
        c'.getDocumentIfMatch "/a.ts" "x" none none = none) ∧
      cacheFirst.getDocumentIfMatch "/a.ts" "x" none none
        = some { version := some "A", text := "docA" } ∧
      cacheSecond.getDocumentIfMatch "/a.ts" "x" none none
        = some { version := some "B", text := "docB" }) ∧
    updateSourceFile envTwoCaches initialState "/a.ts" { target := none } "x" "1" none =
      ({ sourceFileCacheByFilePath := [("/a.ts", { version := some "A", text := "docA" })],
         parseCount := 0, docCacheQueryCount := 1 },
        Except.ok { version := some "A", text := "docA" }) :=
  ⟨⟨rfl, fun c' hc' => absurd hc' (List.not_mem_nil c'), rfl, rfl⟩,
    C4_lookaside_priority envTwoCaches initialState "/a.ts" { target := none } "x" "1" none
      [] cacheFirst [cacheSecond] { version := some "A", text := "docA" } rfl
      (fun c' hc' => absurd hc' (List.not_mem_nil c')) rfl⟩

/-- C6: if the parser throws during materialization, the registry's map is
left exactly as it was before the call — the previous entry for the path, if
any, is still present and unmodified. -/
theorem C6_parse_failure_preserves_map (env : Env) (st : RegistryState)
    (fileName : StandardizedFilePath) (cs : CompilerOptions) (snap : Snapshot) (v : String)
    (sk : Option ScriptKind) (e : Unit)
    (hq : (queryCaches env.documentCaches fileName snap cs.target sk).2 = none)
    (hp : env.createCompilerSourceFile fileName snap cs.target v true sk = Except.error e) :
    (updateSourceFile env st fileName cs snap v sk).1.sourceFileCacheByFilePath =
        st.sourceFileCacheByFilePath ∧
      (updateSourceFile env st fileName cs snap v sk).2 = Except.error e := by
  rw [updateSourceFile_error_eq env st fileName cs snap v sk e hq hp]
  exact ⟨rfl, rfl⟩

/-- Witness for C6 at a concrete input: a throwing parser on a registry that
already caches an entry for the path leaves that entry in place. -/
theorem C6_parse_failure_preserves_map_witness :
    ((queryCaches envFail.documentCaches "/a.ts" "x" none none).2 = none ∧
      envFail.createCompilerSourceFile "/a.ts" "x" none "1" true none = Except.error ()) ∧
    ((updateSourceFile envFail
        { sourceFileCacheByFilePath := [("/a.ts", { version := some "0", text := "old" })],
          parseCount := 1, docCacheQueryCount := 0 }
        "/a.ts" { target := none } "x" "1" none).1.sourceFileCacheByFilePath =
      [("/a.ts", { version := some "0", text := "old" })] ∧
      (updateSourceFile envFail
        { sourceFileCacheByFilePath := [("/a.ts", { version := some "0", text := "old" })],
          parseCount := 1, docCacheQueryCount := 0 }
        "/a.ts" { target := none } "x" "1" none).2 = Except.error ()) :=
  ⟨⟨rfl, rfl⟩,
    C6_parse_failure_preserves_map envFail
      { sourceFileCacheByFilePath := [("/a.ts", { version := some "0", text := "old" })],
        parseCount := 1, docCacheQueryCount := 0 }
      "/a.ts" { target := none } "x" "1" none () rfl rfl⟩

/-- C8: the `WithKey` variants and `updateDocument` are extensionally equal to
`acquireDocument` on their shared arguments; the extra key and path parameters
are ignored. -/
theorem C8_entry_points_coincide (env : Env) (st : RegistryState) (fileName : String)
    (path : TsPath) (cs : CompilerOptions) (key : BucketKey) (snap : Snapshot) (v : String)
    (sk : Option ScriptKind) :
    acquireDocumentWithKey env st fileName path cs key snap v sk
        = acquireDocument env st fileName cs snap v sk ∧
      updateDocument env st fileName cs snap v sk
        = acquireDocument env st fileName cs snap v sk ∧
      updateDocumentWithKey env st fileName path cs key snap v sk
        = acquireDocument env st fileName cs snap v sk :=
  ⟨rfl, rfl, rfl⟩

/-- C9: `releaseDocument` and `releaseDocumentWithKey` return the state
unchanged — same map entries, same counters, so neither the parser nor any
lookaside cache is invoked. -/
theorem C9_release_noop (st : RegistryState) (fileName : String) (cs : CompilerOptions)
    (path : TsPath) (key : BucketKey) :
    releaseDocument st fileName cs = st ∧ releaseDocumentWithKey st path key = st :=
  ⟨rfl, rfl⟩

/-- C10: a file with an absent or empty recorded version reports version
`"0"`; no file ever reports `""`, so `acquireDocument` with the requested
version `""` never takes the cache-hit branch — every such call goes through
`updateSourceFile`, even immediately after an identical call. -/
theorem C10_empty_version_never_hits :
    (∀ t : String, getSourceFileVersion { version := none, text := t } = "0") ∧
      (∀ t : String, getSourceFileVersion { version := some "", text := t } = "0") ∧
      (∀ sf : SourceFile, getSourceFileVersion sf ≠ "") ∧
      (∀ (env : Env) (st : RegistryState) (fileName : String) (cs : CompilerOptions)
          (snap : Snapshot) (sk : Option ScriptKind),
        acquireDocument env st fileName cs snap "" sk =
          updateSourceFile env st (env.getStandardizedAbsolutePath fileName) cs snap "" sk) := by
  refine ⟨fun t => rfl, fun t => rfl, getSourceFileVersion_ne_empty, ?_⟩
  intro env st fileName cs snap sk
  rcases hm : mapGet st.sourceFileCacheByFilePath (env.getStandardizedAbsolutePath fileName) with
      _ | sf
  · exact acquireDocument_of_fresh env st fileName cs snap "" sk hm
  · exact acquireDocument_of_mismatch env st fileName cs snap "" sk sf hm
      (getSourceFileVersion_ne_empty sf)

/-- C1, counterexample: at the concrete input path `"/a.ts"`, snapshot `"x"`,
version `""`, two `acquireDocument` calls with identical arguments invoke the
parser twice, not once — the stored tree reports version `"0"` which never
equals the requested `""`, so the second call does not take the cache-hit
branch.  This refutes the claim's quantification over *every* version
string. -/
theorem C1_counterexample :
    (acquireDocument envModel
        (acquireDocument envModel initialState "/a.ts" { target := none } "x" "" none).1
        "/a.ts" { target := none } "x" "" none).1.parseCount = 2 := by
  rfl

/-- C1, amended: for every *nonempty* version string, starting from a registry
with no entry for the standardized path, when no lookaside cache matches and
the parser succeeds recording the requested version, a second `acquireDocument`
with exactly the same arguments returns the same tree as the first, the parser
is invoked exactly once across the two calls, and the second call leaves the
state untouched (cache-hit branch: no re-parse, no new entry). -/
theorem C1_amended_idempotent_acquire (env : Env) (st : RegistryState) (fileName : String)
    (cs : CompilerOptions) (snap : Snapshot) (version : String) (sk : Option ScriptKind)
    (sf : SourceFile)
    (hver : version ≠ "")
    (hfresh : mapGet st.sourceFileCacheByFilePath (env.getStandardizedAbsolutePath fileName)
      = none)
    (hcache : (queryCaches env.documentCaches (env.getStandardizedAbsolutePath fileName) snap
      cs.target sk).2 = none)
    (hp : env.createCompilerSourceFile (env.getStandardizedAbsolutePath fileName) snap
      cs.target version true sk = Except.ok sf)
    (hv : sf.version = some version) :
    (acquireDocument env st fileName cs snap version sk).2 = Except.ok sf ∧
      (acquireDocument env st fileName cs snap version sk).1.parseCount = st.parseCount + 1 ∧
      acquireDocument env (acquireDocument env st fileName cs snap version sk).1 fileName cs
          snap version sk
        = ((acquireDocument env st fileName cs snap version sk).1, Except.ok sf) := by
  have h1 := (acquireDocument_of_fresh env st fileName cs snap version sk hfresh).trans
    (updateSourceFile_parse_eq env st _ cs snap version sk sf hcache hp)
  have hm2 : mapGet (acquireDocument env st fileName cs snap version sk).1.sourceFileCacheByFilePath
      (env.getStandardizedAbsolutePath fileName) = some sf := by
    rw [h1]
    exact mapGet_mapSet_self st.sourceFileCacheByFilePath _ sf
  have hsv : getSourceFileVersion sf = version := getSourceFileVersion_of_some sf version hv hver
  refine ⟨by rw [h1], by rw [h1], ?_⟩
  exact acquireDocument_of_hit env _ fileName cs snap version sk sf hm2 hsv

/-- Witness for the amended C1 at a concrete input (version `"5"`). -/
theorem C1_amended_idempotent_acquire_witness :
    (("5" : String) ≠ "" ∧
      mapGet initialState.sourceFileCacheByFilePath
        (envModel.getStandardizedAbsolutePath "/a.ts") = none ∧
      (queryCaches envModel.documentCaches (envModel.getStandardizedAbsolutePath "/a.ts") "x"
        none none).2 = none ∧
      envModel.createCompilerSourceFile (envModel.getStandardizedAbsolutePath "/a.ts") "x" none
        "5" true none = Except.ok { version := some "5", text := "x" } ∧
      (SourceFile.mk (some "5") "x").version = some "5") ∧
    ((acquireDocument envModel initialState "/a.ts" { target := none } "x" "5" none).2
        = Except.ok { version := some "5", text := "x" } ∧
      (acquireDocument envModel initialState "/a.ts" { target := none } "x" "5"
        none).1.parseCount = initialState.parseCount + 1 ∧
      acquireDocument envModel
          (acquireDocument envModel initialState "/a.ts" { target := none } "x" "5" none).1
          "/a.ts" { target := none } "x" "5" none
        = ((acquireDocument envModel initialState "/a.ts" { target := none } "x" "5" none).1,
            Except.ok { version := some "5", text := "x" })) :=
  ⟨⟨by decide, rfl, rfl, rfl, rfl⟩,
    C1_amended_idempotent_acquire envModel initialState "/a.ts" { target := none } "x" "5" none
      { version := some "5", text := "x" } (by decide) rfl rfl rfl rfl⟩

/-- C5: from a registry with no entry for the path (and no matching lookaside
cache, with a parser recording requested versions), acquiring at version `"5"`
and then at version `"6"` parses twice and the second tree is distinct from
the first and is the one stored; in general, whenever the cached entry's
reported version differs from the requested version, `acquireDocument`
materializes via `updateSourceFile`. -/
theorem C5_version_change_reparse (env : Env) (st : RegistryState) (fileName : String)
    (cs : CompilerOptions) (snap : Snapshot) (sk : Option ScriptKind) (sf5 sf6 : SourceFile)
    (hfresh : mapGet st.sourceFileCacheByFilePath (env.getStandardizedAbsolutePath fileName)
      = none)
    (hcache : (queryCaches env.documentCaches (env.getStandardizedAbsolutePath fileName) snap
      cs.target sk).2 = none)
    (hp5 : env.createCompilerSourceFile (env.getStandardizedAbsolutePath fileName) snap
      cs.target "5" true sk = Except.ok sf5)
    (hv5 : sf5.version = some "5")
    (hp6 : env.createCompilerSourceFile (env.getStandardizedAbsolutePath fileName) snap
      cs.target "6" true sk = Except.ok sf6)
    (hv6 : sf6.version = some "6") :
    (acquireDocument env st fileName cs snap "5" sk).2 = Except.ok sf5 ∧
      (acquireDocument env (acquireDocument env st fileName cs snap "5" sk).1 fileName cs snap
        "6" sk).2 = Except.ok sf6 ∧
      sf6 ≠ sf5 ∧
      (acquireDocument env (acquireDocument env st fileName cs snap "5" sk).1 fileName cs snap
        "6" sk).1.parseCount = st.parseCount + 2 ∧
      mapGet (acquireDocument env (acquireDocument env st fileName cs snap "5" sk).1 fileName cs
          snap "6" sk).1.sourceFileCacheByFilePath (env.getStandardizedAbsolutePath fileName)
        = some sf6 ∧
      (∀ (st' : RegistryState) (v : String) (sf' : SourceFile),
        mapGet st'.sourceFileCacheByFilePath (env.getStandardizedAbsolutePath fileName)
          = some sf' →
        getSourceFileVersion sf' ≠ v →
        acquireDocument env st' fileName cs snap v sk =
          updateSourceFile env st' (env.getStandardizedAbsolutePath fileName) cs snap v sk) := by
  have h1 := (acquireDocument_of_fresh env st fileName cs snap "5" sk hfresh).trans
    (updateSourceFile_parse_eq env st _ cs snap "5" sk sf5 hcache hp5)
  have hm1 : mapGet (acquireDocument env st fileName cs snap "5" sk).1.sourceFileCacheByFilePath
      (env.getStandardizedAbsolutePath fileName) = some sf5 := by
    rw [h1]
    exact mapGet_mapSet_self st.sourceFileCacheByFilePath _ sf5
  have hsv5 : getSourceFileVersion sf5 = "5" :=
    getSourceFileVersion_of_some sf5 "5" hv5 (by decide)
  have hne : getSourceFileVersion sf5 ≠ "6" := by rw [hsv5]; decide
  have h2 := (acquireDocument_of_mismatch env _ fileName cs snap "6" sk sf5 hm1 hne).trans
    (updateSourceFile_parse_eq env _ _ cs snap "6" sk sf6 hcache hp6)
  refine ⟨by rw [h1], by rw [h2], ?_, ?_, ?_, ?_⟩
  · intro h
    rw [h, hv5] at hv6
    exact absurd (Option.some.inj hv6) (by decide)
  · rw [h2]
    show (acquireDocument env st fileName cs snap "5" sk).1.parseCount + 1 = st.parseCount + 2
    rw [h1]
  · rw [h2]
    exact mapGet_mapSet_self _ _ sf6
  · intro st' v sf' hm hnev
    exact acquireDocument_of_mismatch env st' fileName cs snap v sk sf' hm hnev

/-- Witness for C5 at a concrete input. -/
theorem C5_version_change_reparse_witness :
    (mapGet initialState.sourceFileCacheByFilePath
        (envModel.getStandardizedAbsolutePath "/a.ts") = none ∧
      (queryCaches envModel.documentCaches (envModel.getStandardizedAbsolutePath "/a.ts") "x"
        none none).2 = none ∧
      envModel.createCompilerSourceFile (envModel.getStandardizedAbsolutePath "/a.ts") "x" none
        "5" true none = Except.ok { version := some "5", text := "x" } ∧
      envModel.createCompilerSourceFile (envModel.getStandardizedAbsolutePath "/a.ts") "x" none
        "6" true none = Except.ok { version := some "6", text := "x" }) ∧
    ((acquireDocument envModel initialState "/a.ts" { target := none } "x" "5" none).2
        = Except.ok { version := some "5", text := "x" } ∧
      (acquireDocument envModel
          (acquireDocument envModel initialState "/a.ts" { target := none } "x" "5" none).1
          "/a.ts" { target := none } "x" "6" none).2
        = Except.ok { version := some "6", text := "x" } ∧
      (SourceFile.mk (some "6") "x") ≠ (SourceFile.mk (some "5") "x") ∧
      (acquireDocument envModel
          (acquireDocument envModel initialState "/a.ts" { target := none } "x" "5" none).1
          "/a.ts" { target := none } "x" "6" none).1.parseCount
        = initialState.parseCount + 2) :=
  have h := C5_version_change_reparse envModel initialState "/a.ts" { target := none } "x" none
    { version := some "5", text := "x" } { version := some "6", text := "x" }
    rfl rfl rfl rfl rfl rfl
  ⟨⟨rfl, rfl, rfl, rfl⟩, h.1, h.2.1, h.2.2.1, h.2.2.2.1⟩

/-- C7: after `removeSourceFile`, the next `createOrUpdateSourceFile` for the
path materializes at the initial version `"0"` again, whatever the path's
prior history in the registry. -/
theorem C7_reset_on_remove (env : Env) (st : RegistryState) (fileName : StandardizedFilePath)
    (cs : CompilerOptions) (snap : Snapshot) (sk : Option ScriptKind) (sf : SourceFile)
    (hcache : (queryCaches env.documentCaches fileName snap cs.target sk).2 = none)
    (hp : env.createCompilerSourceFile fileName snap cs.target initialVersion true sk
      = Except.ok sf)
    (hv : sf.version = some initialVersion) :
    (createOrUpdateSourceFile env (removeSourceFile st fileName) fileName cs snap sk).2
        = Except.ok sf ∧
      getSourceFileVersion sf = initialVersion := by
  constructor
  · have hget : mapGet (removeSourceFile st fileName).sourceFileCacheByFilePath fileName
        = none := mapGet_mapDelete_self st.sourceFileCacheByFilePath fileName
    simp only [createOrUpdateSourceFile, hget]
    rw [updateSourceFile_parse_eq env _ fileName cs snap initialVersion sk sf hcache hp]
  · exact getSourceFileVersion_of_some sf _ hv (by decide)

/-- Witness for C7 at a concrete input: a registry whose entry for the path
has reached version `"7"`; after removal the next create-or-update is at
`"0"`. -/
theorem C7_reset_on_remove_witness :
    ((queryCaches envModel.documentCaches "/a.ts" "x" none none).2 = none ∧
      envModel.createCompilerSourceFile "/a.ts" "x" none initialVersion true none
        = Except.ok { version := some initialVersion, text := "x" }) ∧
    ((createOrUpdateSourceFile envModel
        (removeSourceFile
          { sourceFileCacheByFilePath := [("/a.ts", { version := some "7", text := "old" })],
            parseCount := 8, docCacheQueryCount := 0 }
          "/a.ts")
        "/a.ts" { target := none } "x" none).2
        = Except.ok { version := some initialVersion, text := "x" } ∧
      getSourceFileVersion { version := some initialVersion, text := "x" } = initialVersion) :=
  ⟨⟨rfl, rfl⟩,
    C7_reset_on_remove envModel
      { sourceFileCacheByFilePath := [("/a.ts", { version := some "7", text := "old" })],
        parseCount := 8, docCacheQueryCount := 0 }
      "/a.ts" { target := none } "x" none { version := some initialVersion, text := "x" }
      rfl rfl rfl⟩

/-- Auxiliary induction for C2: from a state whose entry for the path records
the decimal numeral of `k`, `N` further create-or-update calls (no matching
cache, version-recording parser) yield versions `k+1, …, k+N` in order. -/
theorem createOrUpdateRun_versions (env : Env) (fileName : StandardizedFilePath)
    (cs : CompilerOptions) (snap : Snapshot) (sk : Option ScriptKind)
    (hcache : (queryCaches env.documentCaches fileName snap cs.target sk).2 = none)
    (hparse : ∀ v : String, ∃ sf : SourceFile,
      env.createCompilerSourceFile fileName snap cs.target v true sk = Except.ok sf ∧
        sf.version = some v) :
    ∀ (N : Nat) (st : RegistryState) (k : Nat) (sfk : SourceFile),
      mapGet st.sourceFileCacheByFilePath fileName = some sfk →
      sfk.version = some (Nat.repr k) →
      ((createOrUpdateRun env fileName cs snap sk N st).2).map resultVersion
        = (List.range N).map (fun i => Nat.repr (k + 1 + i)) := by
  intro N
  induction N with
  | zero => intro st k sfk _ _; rfl
  | succ N ih =>
    intro st k sfk hm hv
    obtain ⟨sf', hps, hvs⟩ := hparse (Nat.repr (k + 1))
    have hnext : getNextSourceFileVersion sfk = Nat.repr (k + 1) :=
      getNextSourceFileVersion_repr sfk k hv
    have hstep : createOrUpdateSourceFile env st fileName cs snap sk =
        ({ sourceFileCacheByFilePath := mapSet st.sourceFileCacheByFilePath fileName sf',
           parseCount := st.parseCount + 1,
           docCacheQueryCount := st.docCacheQueryCount
             + (queryCaches env.documentCaches fileName snap cs.target sk).1 },
          Except.ok sf') := by
      simp only [createOrUpdateSourceFile, hm, hnext]
      exact updateSourceFile_parse_eq env st fileName cs snap _ sk sf' hcache hps
    simp only [createOrUpdateRun, hstep, List.map_cons]
    have hm1 : mapGet (mapSet st.sourceFileCacheByFilePath fileName sf') fileName = some sf' :=
      mapGet_mapSet_self _ _ _
    rw [ih _ (k + 1) sf' hm1 hvs]
    have hrv : resultVersion (Except.ok sf') = Nat.repr (k + 1) := by
      simp [resultVersion, getSourceFileVersion_of_some sf' _ hvs (repr_ne_empty (k + 1))]
    rw [hrv, List.range_succ_eq_map, List.map_cons, List.map_map]
    refine congrArg₂ List.cons (congrArg Nat.repr (by omega)) ?_
    exact List.map_congr_left (fun i _ => congrArg Nat.repr (by omega))

/-- C2: starting from a registry with no entry for the path, `N ≥ 1`
successive `createOrUpdateSourceFile` calls (with no intervening removal, no
matching lookaside cache, and a version-recording parser) produce trees whose
recorded versions are `"0", "1", …, toString (N-1)` in exactly that order. -/
theorem C2_monotonic_revision (env : Env) (st : RegistryState) (fileName : StandardizedFilePath)
    (cs : CompilerOptions) (snap : Snapshot) (sk : Option ScriptKind) (N : Nat)
    (hN : 1 ≤ N)
    (hfresh : mapGet st.sourceFileCacheByFilePath fileName = none)
    (hcache : (queryCaches env.documentCaches fileName snap cs.target sk).2 = none)
    (hparse : ∀ v : String, ∃ sf : SourceFile,
      env.createCompilerSourceFile fileName snap cs.target v true sk = Except.ok sf ∧
        sf.version = some v) :
    ((createOrUpdateRun env fileName cs snap sk N st).2).map resultVersion
      = (List.range N).map (fun i => Nat.repr i) := by
  obtain ⟨M, rfl⟩ : ∃ M, N = M + 1 := ⟨N - 1, by omega⟩
  obtain ⟨sf0, hp0, hv0⟩ := hparse initialVersion
  have hv0' : sf0.version = some (Nat.repr 0) := by
    rw [hv0]
    decide
  have hstep0 : createOrUpdateSourceFile env st fileName cs snap sk =
      ({ sourceFileCacheByFilePath := mapSet st.sourceFileCacheByFilePath fileName sf0,
         parseCount := st.parseCount + 1,
         docCacheQueryCount := st.docCacheQueryCount
           + (queryCaches env.documentCaches fileName snap cs.target sk).1 },
        Except.ok sf0) := by
    simp only [createOrUpdateSourceFile, hfresh]
    exact updateSourceFile_parse_eq env st fileName cs snap initialVersion sk sf0 hcache hp0
  simp only [createOrUpdateRun, hstep0, List.map_cons]
  rw [createOrUpdateRun_versions env fileName cs snap sk hcache hparse M _ 0 sf0
    (mapGet_mapSet_self _ _ _) hv0']
  have hrv0 : resultVersion (Except.ok sf0) = Nat.repr 0 := by
    simp [resultVersion, getSourceFileVersion_of_some sf0 _ hv0' (repr_ne_empty 0)]
  rw [hrv0, List.range_succ_eq_map, List.map_cons, List.map_map]
  refine congrArg₂ List.cons rfl ?_
  exact List.map_congr_left (fun i _ => congrArg Nat.repr (by omega))

/-- Witness for C2 at a concrete input: three successive calls yield versions
`"0", "1", "2"`. -/
theorem C2_monotonic_revision_witness :
    (1 ≤ 3 ∧
      mapGet initialState.sourceFileCacheByFilePath "/a.ts" = none ∧
      (queryCaches envModel.documentCaches "/a.ts" "x" none none).2 = none ∧
      (∀ v : String, ∃ sf : SourceFile,
        envModel.createCompilerSourceFile "/a.ts" "x" none v true none = Except.ok sf ∧
          sf.version = some v)) ∧
    ((createOrUpdateRun envModel "/a.ts" { target := none } "x" none 3 initialState).2).map
        resultVersion
      = (List.range 3).map (fun i => Nat.repr i) :=
  ⟨⟨by decide, rfl, rfl, fun v => ⟨{ version := some v, text := "x" }, rfl, rfl⟩⟩,
    C2_monotonic_revision envModel initialState "/a.ts" { target := none } "x" none 3
      (by decide) rfl rfl (fun v => ⟨{ version := some v, text := "x" }, rfl, rfl⟩)⟩

end DocReg
